import Mathlib

/-!
Verification development for the WG-server scrape-and-persist pipeline
(`src/app.js`, function `fetchDataAndSaveToDB`, the `/update` and `/prices`
endpoints, and the `price` table of
`src/prisma/migrations/20230729132306_v0_0_1/migration.sql`).

The markup already parsed by cheerio is modelled as a rose tree `Node`;
cheerio selections are lists of nodes in document (preorder) order.
JavaScript numbers produced by `parseFloat` are modelled by `JSNum`
(a rational value or the NaN sentinel).  The PostgreSQL `price` table is
modelled by `Store`: a list of rows plus the serial sequence backing the
`id` column.  Per the migration, `price` has a single constraint, the
primary key on `id`; there is no unique index on any data column.

The orchestration of `fetchDataAndSaveToDB` is modelled with an explicit
exception semantics `TryResult`: stages that may throw produce `thrown`,
and the function's `try/catch` converts every `thrown` into a logged,
normally-returned outcome.
-/

/-- Markup node: a text node, or an element with a tag, a class list and
children.  This is the document shape cheerio exposes after `load`. -/
inductive Node where
  | text (s : String)
  | elem (tag : String) (classes : List String) (children : List Node)

mutual

/-- Text content of a node: cheerio's `.text()` on a single element is the
concatenation of every descendant text node, in document order. -/
def textOf : Node → String
  | .text s => s
  | .elem _ _ cs => textOfList cs

/-- Text content of a list of nodes, concatenated in order; cheerio's
`.text()` on a selection concatenates the text of each matched node. -/
def textOfList : List Node → String
  | [] => ""
  | c :: cs => textOf c ++ textOfList cs

end

mutual

/-- All strict descendants of a node satisfying `p`, in document
(preorder) order — the semantics of cheerio's `.find(...)` on one node. -/
def descendants (p : Node → Bool) : Node → List Node
  | .text _ => []
  | .elem _ _ cs => descendantsList p cs

/-- Descendant search over a list of sibling subtrees: each matching
sibling, then its own matching descendants, then the later siblings. -/
def descendantsList (p : Node → Bool) : List Node → List Node
  | [] => []
  | c :: cs => (if p c then [c] else []) ++ descendants p c ++ descendantsList p cs

end

/-- Whole-document selection: the root if it matches, then matching
descendants in document order — the semantics of cheerio's top-level
`$(selector)`. -/
def select (p : Node → Bool) (root : Node) : List Node :=
  (if p root then [root] else []) ++ descendants p root

/-- Class test backing a `.cls` selector. -/
def hasClass (c : String) : Node → Bool
  | .text _ => false
  | .elem _ classes _ => classes.contains c

/-- Tag test backing a tag-name selector such as `p`. -/
def isTag (t : String) : Node → Bool
  | .text _ => false
  | .elem tag _ _ => tag == t

/-- CSS class of one fact wrapper, from `app.js` line 427. -/
def factWrapperClass : String := "key-facts-full__fact-wrapper"

/-- CSS class of the figure sub-element, from `app.js` line 428. -/
def figureClass : String := "key-facts-full__figure"

/-- CSS class of the description sub-element, from `app.js` line 429. -/
def descriptionClass : String := "key-facts-full__description"

/-- CSS class of the quote block, from `app.js` line 430. -/
def quoteClass : String := "key-facts-full__quote"

/-- JavaScript number as produced by `parseFloat`: either NaN or a
numeric value (modelled as a rational; the finitely many decimal strings
parsed here are all exactly representable). -/
inductive JSNum where
  | nan
  | val (q : ℚ)
deriving DecidableEq, Repr

/-- Numeric value of a digit character. -/
def digitVal (c : Char) : Nat := c.toNat - Char.toNat '0'

/-- Natural number denoted by a list of decimal digit characters. -/
def natOfDigits (ds : List Char) : Nat := ds.foldl (fun a c => 10 * a + digitVal c) 0

/-- JavaScript `parseFloat`, restricted to plain decimal literals: skip
leading whitespace, read an optional sign, then an integer part, an
optional dot and a fractional part, ignoring any trailing characters.
If no digit is consumed the result is NaN.  (Exponent notation and the
literal `Infinity`, which the scraped figures never use, are not
modelled.) -/
def parseFloat (s : String) : JSNum :=
  let cs := s.toList.dropWhile (fun c => c == ' ' || c == '\t' || c == '\n')
  let signed : Int × List Char :=
    match cs with
    | '-' :: r => (-1, r)
    | '+' :: r => (1, r)
    | r => (1, r)
  let ip := signed.2.takeWhile Char.isDigit
  let rest := signed.2.dropWhile Char.isDigit
  let fp :=
    match rest with
    | '.' :: r => r.takeWhile Char.isDigit
    | _ => []
  if ip.isEmpty && fp.isEmpty then JSNum.nan
  else
    let mag : Nat := natOfDigits ip * 10 ^ fp.length + natOfDigits fp
    JSNum.val (mkRat (signed.1 * mag) (10 ^ fp.length))

/-- One extracted record, as pushed onto `prices` in `app.js` lines
427-434.  The spec calls `orderID` the `sequenceNumber`. -/
structure PriceRec where
  orderID : Nat
  figure : JSNum
  description : String
  quote : String
deriving DecidableEq, Repr

/-- The fact wrappers of a document: the selection
`$(".key-facts-full__fact-wrapper")`, in document order. -/
def factWrappers (doc : Node) : List Node := select (hasClass factWrapperClass) doc

/-- The paragraph nodes backing the quote text: the selection
`$(".key-facts-full__quote").find("p")` — every `p` descendant of every
quote-class element anywhere in the document, in document order. -/
def pageQuoteParagraphs (doc : Node) : List Node :=
  (select (hasClass quoteClass) doc).flatMap (descendants (isTag "p"))

/-- Extraction phase of `fetchDataAndSaveToDB` (`app.js` lines 424-434):
iterate over the fact wrappers in document order with `orderID` starting
at 1; for each wrapper take the figure sub-element's text through
`parseFloat`, the description sub-element's text verbatim, and the
document-wide quote text (recomputed identically on every iteration, as
in the source). -/
def extract (doc : Node) : List PriceRec :=
  (factWrappers doc).enum.map (fun iw =>
    { orderID := iw.1 + 1
      figure := parseFloat (textOfList (descendants (hasClass figureClass) iw.2))
      description := textOfList (descendants (hasClass descriptionClass) iw.2)
      quote := textOfList (pageQuoteParagraphs doc) })

/-- One row of the `price` table (`migration.sql` lines 1-11): serial
`id`, the four data columns, and `created_at` (a timestamp, modelled as
a natural number). -/
structure Row where
  id : Nat
  orderID : Nat
  figure : JSNum
  quote : String
  description : String
  created_at : Nat
deriving DecidableEq, Repr

/-- State of the `price` table: the rows plus the serial sequence that
assigns the next `id`. -/
structure Store where
  nextId : Nat
  rows : List Row
deriving DecidableEq, Repr

/-- The empty table, as created by the migration. -/
def emptyStore : Store := { nextId := 1, rows := [] }

/-- Row built from an extracted record at persistence time; `created_at`
is assigned here (`new Date()` in `app.js` line 442), not at
extraction. -/
def rowOfRec (id : Nat) (r : PriceRec) (t : Nat) : Row :=
  { id := id, orderID := r.orderID, figure := r.figure, quote := r.quote
    description := r.description, created_at := t }

/-- Insert one row with a fresh serial `id`. -/
def insertRow (s : Store) (r : PriceRec) (t : Nat) : Store :=
  { nextId := s.nextId + 1, rows := s.rows ++ [rowOfRec s.nextId r t] }

/-- `prisma.price.createMany` with `skipDuplicates: true` (`app.js`
lines 436-445) against the actual schema: `skipDuplicates` only skips
rows that collide on a unique constraint, and per the migration the
`price` table's only constraint is the primary key on the serial `id`,
which is store-assigned and never collides — so every record is
inserted.  Returns the new store and the inserted count. -/
def createMany (s : Store) (recs : List PriceRec) (t : Nat) : Store × Nat :=
  match recs with
  | [] => (s, 0)
  | r :: rs =>
    let res := createMany (insertRow s r t) rs t
    (res.1, res.2 + 1)

/-- Whether some row of the store carries the natural key
(orderID, description, quote). -/
def hasKey (s : Store) (k : Nat × String × String) : Bool :=
  s.rows.any (fun row => (row.orderID, row.description, row.quote) == k)

/-- Natural key of an extracted record. -/
def recKey (r : PriceRec) : Nat × String × String := (r.orderID, r.description, r.quote)

/-- Modelled from the spec: `createMany` with `skipDuplicates: true` as it
would behave under the uniqueness constraint the spec assumes, "defined
over (sequenceNumber, description, quote) or equivalent natural key" —
a constraint absent from the repository's migration.  A record whose
natural key is already present (including keys added earlier in the same
batch) is silently skipped instead of inserted. -/
def createManyNatKey (s : Store) (recs : List PriceRec) (t : Nat) : Store × Nat :=
  match recs with
  | [] => (s, 0)
  | r :: rs =>
    if hasKey s (recKey r) then createManyNatKey s rs t
    else
      let res := createManyNatKey (insertRow s r t) rs t
      (res.1, res.2 + 1)

/-- The `GET /prices` handler's query (`app.js` lines 246-259):
`findMany` with `take: 5` ordered by `id` descending. -/
def getPrices (s : Store) : List Row :=
  (List.insertionSort (fun a b => b.id ≤ a.id) s.rows).take 5

/-- Failures that the pipeline stages can throw: a network-level failure
of `axios.get`, or a connection-level failure of the storage layer. -/
inductive JsError where
  | fetchError (msg : String)
  | storageError (msg : String)
deriving DecidableEq, Repr

/-- Outcome environment of one run: what the fetch stage yields (the
parsed document, or a thrown fetch error), and whether the storage layer
fails at connection level (`none` means the insert succeeds). -/
structure Env where
  fetched : Except JsError Node
  storage : Option JsError

/-- Result of a block of JavaScript code under exception semantics:
either a normal value or a thrown error. -/
inductive TryResult (α : Type) where
  | normal (val : α)
  | thrown (err : JsError)

/-- What one run writes to the console: the success log
(`"Prices inserted into PostgreSQL"` with the result of `createMany`) or
the catch-block error log (`"Error fetching data and saving to DB"`). -/
inductive RunLog where
  | insertedCount (n : Nat)
  | errorLogged (err : JsError)
deriving DecidableEq, Repr

/-- The `try` block of `fetchDataAndSaveToDB` (`app.js` lines 419-447):
fetch the page (propagating a thrown fetch error), extract the records,
then `createMany` (propagating a thrown storage error; a connection-level
failure writes no rows). -/
def tryBlock (env : Env) (s : Store) (t : Nat) : TryResult (Store × Nat) :=
  match env.fetched with
  | .error e => .thrown e
  | .ok doc =>
    let prices := extract doc
    match env.storage with
    | some e => .thrown e
    | none => .normal (createMany s prices t)

/-- `fetchDataAndSaveToDB` (`app.js` lines 418-451): the `try` block
wrapped in the all-catching `catch`, which logs the error and returns
normally, leaving the store as it was.  The function never rethrows. -/
def fetchDataAndSaveToDB (env : Env) (s : Store) (t : Nat) : TryResult (Store × RunLog) :=
  match tryBlock env s t with
  | .normal res => .normal (res.1, .insertedCount res.2)
  | .thrown e => .normal (s, .errorLogged e)

/-- The `GET /update` handler (`app.js` lines 235-243): respond
`200 "Data updated"` if the promise returned by `fetchDataAndSaveToDB`
resolves, `500 "Error updating data"` if it rejects. -/
def updateHandler (env : Env) (s : Store) (t : Nat) : Nat × String :=
  match fetchDataAndSaveToDB env s t with
  | .normal _ => (200, "Data updated")
  | .thrown _ => (500, "Error updating data")

/-- Fixture paragraph element. -/
def pElem (s : String) : Node := .elem "p" [] [.text s]

/-- Fixture figure sub-element. -/
def figureElem (s : String) : Node := .elem "div" [figureClass] [.text s]

/-- Fixture description sub-element. -/
def descriptionElem (s : String) : Node := .elem "div" [descriptionClass] [.text s]

/-- Fixture fact wrapper with a figure text and a description text. -/
def wrapperElem (f d : String) : Node :=
  .elem "div" [factWrapperClass] [figureElem f, descriptionElem d]

/-- Fixture quote block holding one paragraph per string. -/
def quoteElem (ps : List String) : Node := .elem "div" [quoteClass] (ps.map pElem)

/-- Fixture document root. -/
def pageElem (children : List Node) : Node := .elem "html" [] children

/-- The end-to-end fixture of spec section 8: three fact wrappers with
figure texts "12.5", "abc", "7" and one quote "Test quote". -/
def fixture3 : Node :=
  pageElem [wrapperElem "12.5" "a", wrapperElem "abc" "b", wrapperElem "7" "c",
    quoteElem ["Test quote"]]

/-- A document with no fact wrapper at all. -/
def fixtureNoWrappers : Node := pageElem [quoteElem ["x"]]

/-- A document with one fact wrapper and two separate quote blocks. -/
def fixtureTwoQuotes : Node :=
  pageElem [wrapperElem "1" "d", quoteElem ["A"], quoteElem ["B"]]

/-- A store row with `id` and `orderID` equal to `i`, used to build
concrete store states. -/
def sampleRow (i : Nat) : Row :=
  { id := i, orderID := i, figure := JSNum.nan, quote := "", description := "", created_at := 0 }

/-- A store holding rows with surrogate keys 1..10. -/
def store10 : Store := { nextId := 11, rows := (List.range' 1 10).map sampleRow }

/-- A one-record batch used in the duplication counterexample. -/
def batch1 : List PriceRec :=
  [{ orderID := 1, figure := JSNum.val 3, description := "d", quote := "q" }]

/-- Statement-side reading of claim C10: the concatenation, in document
order, of the text of every `p` element nested under every element
carrying the quote class, anywhere in the document. -/
def allQuoteParagraphText (doc : Node) : String :=
  ((select (hasClass quoteClass) doc).flatMap (descendants (isTag "p"))).foldr
    (fun n acc => textOf n ++ acc) ""

theorem textOfList_eq_foldr (l : List Node) :
    textOfList l = l.foldr (fun n acc => textOf n ++ acc) "" := by
  induction l with
  | nil => rfl
  | cons c cs ih => rw [textOfList, ih]; rfl

theorem enum_map_succ {α : Type} (l : List α) :
    l.enum.map (fun p => p.1 + 1) = List.range' 1 l.length := by
  have h1 : l.enum.map (fun p => p.1 + 1) = (l.enum.map Prod.fst).map (fun n => n + 1) := by
    rw [List.map_map]; rfl
  rw [h1, List.enum_map_fst, List.range'_eq_map_range]
  exact List.map_congr_left (fun a _ => Nat.add_comm a 1)

theorem extract_length (doc : Node) : (extract doc).length = (factWrappers doc).length := by
  simp [extract]

theorem extract_quote_fixed (doc : Node) :
    ∀ r ∈ extract doc, r.quote = textOfList (pageQuoteParagraphs doc) := by
  intro r hr
  rw [extract] at hr
  obtain ⟨iw, _, rfl⟩ := List.mem_map.1 hr
  rfl

/-- C1: extraction from any document yields one record per fact wrapper,
with orderID values exactly 1..N in document order, and with the same
quote string on every record of the batch. -/
theorem extract_orderIDs_dense_and_quote_shared (doc : Node) :
    (extract doc).map PriceRec.orderID = List.range' 1 (factWrappers doc).length ∧
      ∀ r1 ∈ extract doc, ∀ r2 ∈ extract doc, r1.quote = r2.quote := by
  constructor
  · rw [extract, List.map_map]
    exact enum_map_succ _
  · intro r1 h1 r2 h2
    rw [extract_quote_fixed doc r1 h1, extract_quote_fixed doc r2 h2]

/-- Witness for C1 at the three-wrapper fixture of spec section 8. -/
theorem extract_orderIDs_dense_and_quote_shared_witness :
    ((extract fixture3).map PriceRec.orderID = List.range' 1 (factWrappers fixture3).length ∧
        ({ orderID := 1, figure := JSNum.val (mkRat 25 2), description := "a",
            quote := "Test quote" } : PriceRec).quote =
          ({ orderID := 3, figure := JSNum.val 7, description := "c",
              quote := "Test quote" } : PriceRec).quote) ∧
      (extract fixture3).map PriceRec.orderID = [1, 2, 3] :=
  ⟨⟨(extract_orderIDs_dense_and_quote_shared fixture3).1,
      (extract_orderIDs_dense_and_quote_shared fixture3).2 _ (by decide) _ (by decide)⟩,
    by decide⟩

/-- C7: a document containing zero fact wrappers extracts to the empty
batch; extraction is a total function, so no error is signalled. -/
theorem extract_no_wrappers_empty (doc : Node) (h : (factWrappers doc).length = 0) :
    extract doc = [] := by
  rw [extract, List.length_eq_zero.1 h]
  rfl

/-- Witness for C7 at a fixture with a quote block but no wrapper. -/
theorem extract_no_wrappers_empty_witness :
    (factWrappers fixtureNoWrappers).length = 0 ∧ extract fixtureNoWrappers = [] :=
  ⟨by decide, extract_no_wrappers_empty fixtureNoWrappers (by decide)⟩

/-- C6: if the figure text of the i-th fact wrapper does not parse as a
number, the i-th extracted record carries the NaN sentinel as its
figure, and the batch still contains one record per wrapper (extraction
of the later wrappers is unaffected). -/
theorem extract_nonNumeric_yields_nan (doc : Node) (i : Nat)
    (h : i < (factWrappers doc).length)
    (hnn : parseFloat (textOfList (descendants (hasClass figureClass)
        ((factWrappers doc).get ⟨i, h⟩))) = JSNum.nan) :
    (extract doc).length = (factWrappers doc).length ∧
      ∃ h2 : i < (extract doc).length, ((extract doc).get ⟨i, h2⟩).figure = JSNum.nan := by
  have hlen : (extract doc).length = (factWrappers doc).length := extract_length doc
  refine ⟨hlen, hlen ▸ h, ?_⟩
  simp only [List.get_eq_getElem] at hnn ⊢
  simp only [extract, List.getElem_map, List.getElem_enum]
  exact hnn

/-- Witness for C6 at the spec section 8 fixture: the second wrapper's
figure text "abc" yields NaN while the first and third wrappers still
produce their numeric records. -/
theorem extract_nonNumeric_yields_nan_witness :
    ((extract fixture3).length = (factWrappers fixture3).length ∧
        ∃ h2 : 1 < (extract fixture3).length,
          ((extract fixture3).get ⟨1, h2⟩).figure = JSNum.nan) ∧
      (extract fixture3).map PriceRec.figure =
        [JSNum.val (mkRat 25 2), JSNum.nan, JSNum.val 7] :=
  ⟨extract_nonNumeric_yields_nan fixture3 1 (by decide) (by decide), by decide⟩

/-- C10: every extracted record's quote is the concatenated text of all
p elements nested under all quote-class elements anywhere in the
document — multiple quote blocks or paragraphs are concatenated, not
selected from. -/
theorem extract_quote_concatenates_all_blocks (doc : Node) :
    ∀ r ∈ extract doc, r.quote = allQuoteParagraphText doc := by
  intro r hr
  rw [extract_quote_fixed doc r hr, allQuoteParagraphText, ← textOfList_eq_foldr]
  rfl

/-- Witness for C10 at a fixture with two distinct quote blocks "A" and
"B": the single record's quote is their concatenation "AB". -/
theorem extract_quote_concatenates_all_blocks_witness :
    ({ orderID := 1, figure := JSNum.val 1, description := "d", quote := "AB" } : PriceRec)
        ∈ extract fixtureTwoQuotes ∧
      ({ orderID := 1, figure := JSNum.val 1, description := "d",
          quote := "AB" } : PriceRec).quote = allQuoteParagraphText fixtureTwoQuotes ∧
      allQuoteParagraphText fixtureTwoQuotes = "AB" :=
  ⟨by decide, extract_quote_concatenates_all_blocks fixtureTwoQuotes _ (by decide), by decide⟩

theorem createMany_rows_length (b : List PriceRec) (s : Store) (t : Nat) :
    (createMany s b t).1.rows.length = s.rows.length + b.length := by
  induction b generalizing s with
  | nil => simp [createMany]
  | cons r rs ih =>
    simp only [createMany]
    rw [ih (insertRow s r t)]
    simp [insertRow]
    omega

theorem createMany_rows_append (b : List PriceRec) (s : Store) (t : Nat) :
    ∃ new, (createMany s b t).1.rows = s.rows ++ new := by
  induction b generalizing s with
  | nil => exact ⟨[], by simp [createMany]⟩
  | cons r rs ih =>
    obtain ⟨new, hnew⟩ := ih (insertRow s r t)
    refine ⟨rowOfRec s.nextId r t :: new, ?_⟩
    simp only [createMany]
    rw [hnew]
    simp [insertRow]

theorem hasKey_insertRow_mono (s : Store) (r : PriceRec) (t : Nat)
    (k : Nat × String × String) (hk : hasKey s k = true) :
    hasKey (insertRow s r t) k = true := by
  simp only [hasKey, insertRow, List.any_append, Bool.or_eq_true] at hk ⊢
  exact Or.inl hk

theorem insertRow_hasKey_self (s : Store) (r : PriceRec) (t : Nat) :
    hasKey (insertRow s r t) (recKey r) = true := by
  simp [hasKey, insertRow, rowOfRec, recKey]

theorem hasKey_createManyNatKey_mono (b : List PriceRec) (s : Store) (t : Nat)
    (k : Nat × String × String) (hk : hasKey s k = true) :
    hasKey (createManyNatKey s b t).1 k = true := by
  induction b generalizing s with
  | nil => exact hk
  | cons x bs ih =>
    rw [createManyNatKey]
    by_cases hx : hasKey s (recKey x) = true
    · rw [if_pos hx]; exact ih s hk
    · rw [if_neg hx]
      exact ih (insertRow s x t) (hasKey_insertRow_mono s x t k hk)

theorem createManyNatKey_all_keys (b : List PriceRec) (s : Store) (t : Nat) :
    ∀ r ∈ b, hasKey (createManyNatKey s b t).1 (recKey r) = true := by
  induction b generalizing s with
  | nil => intro r hr; cases hr
  | cons x bs ih =>
    intro r hr
    rw [createManyNatKey]
    by_cases hx : hasKey s (recKey x) = true
    · rw [if_pos hx]
      rcases List.mem_cons.1 hr with rfl | hr2
      · exact hasKey_createManyNatKey_mono bs s t (recKey r) hx
      · exact ih s r hr2
    · rw [if_neg hx]
      rcases List.mem_cons.1 hr with rfl | hr2
      · exact hasKey_createManyNatKey_mono bs (insertRow s r t) t (recKey r)
          (insertRow_hasKey_self s r t)
      · exact ih (insertRow s x t) r hr2

theorem createManyNatKey_skips_all (b : List PriceRec) (s : Store) (t : Nat)
    (h : ∀ r ∈ b, hasKey s (recKey r) = true) :
    createManyNatKey s b t = (s, 0) := by
  induction b with
  | nil => rfl
  | cons x bs ih =>
    rw [createManyNatKey, if_pos (h x (List.mem_cons_self x bs))]
    exact ih (fun r hr => h r (List.mem_cons_of_mem x hr))

/-- C2 counterexample: persisting the same one-record batch twice into
the empty store yields two rows, not one — the claimed idempotence fails
on the repository's actual schema, where no uniqueness constraint exists
besides the serial primary key. -/
theorem createMany_twice_not_same_count :
    ¬ ((createMany (createMany emptyStore batch1 0).1 batch1 1).1.rows.length
        = (createMany emptyStore batch1 0).1.rows.length) := by decide

/-- C2 amended: under the repository's migration (sole constraint: the
store-assigned primary key) persisting a batch twice inserts every row
again, growing the table by the batch size both times; the claimed
idempotence holds only under the natural-key uniqueness constraint over
(sequenceNumber, description, quote) that the spec assumes, modelled by
createManyNatKey. -/
theorem createMany_duplicates_unless_natural_key :
    (∀ (s : Store) (b : List PriceRec) (t1 t2 : Nat),
        (createMany (createMany s b t1).1 b t2).1.rows.length
          = s.rows.length + b.length + b.length) ∧
      (∀ (s : Store) (b : List PriceRec) (t1 t2 : Nat),
        (createManyNatKey (createManyNatKey s b t1).1 b t2).1.rows.length
          = (createManyNatKey s b t1).1.rows.length) := by
  constructor
  · intro s b t1 t2
    rw [createMany_rows_length, createMany_rows_length]
  · intro s b t1 t2
    rw [createManyNatKey_skips_all b (createManyNatKey s b t1).1 t2
      (fun r hr => createManyNatKey_all_keys b s t1 r hr)]

/-- C9: fetchDataAndSaveToDB is total with respect to stage failures:
whatever the fetch stage yields and however the storage stage behaves,
the surrounding catch turns any thrown error into a normally returned,
logged outcome; the function never propagates an exception. -/
theorem fetchDataAndSaveToDB_never_throws (env : Env) (s : Store) (t : Nat) :
    ∃ out, fetchDataAndSaveToDB env s t = TryResult.normal out := by
  cases h : tryBlock env s t with
  | normal res => exact ⟨(res.1, RunLog.insertedCount res.2), by simp [fetchDataAndSaveToDB, h]⟩
  | thrown e => exact ⟨(s, RunLog.errorLogged e), by simp [fetchDataAndSaveToDB, h]⟩

/-- C4: when the fetch stage throws, the run leaves the store exactly as
it was (zero rows inserted), logs the failure through the catch block,
and returns normally — so nothing propagates that could kill the host
process or the cron schedule. -/
theorem fetch_error_leaves_store_and_logs (msg : String) (st : Option JsError)
    (s : Store) (t : Nat) :
    fetchDataAndSaveToDB { fetched := Except.error (JsError.fetchError msg), storage := st } s t
      = TryResult.normal (s, RunLog.errorLogged (JsError.fetchError msg)) := rfl

/-- C3, code-level behaviour: the `GET /update` handler answers
`200 "Data updated"` for every outcome of the pipeline, including runs
whose fetch or storage stage throws, because fetchDataAndSaveToDB
swallows every error and its promise always resolves; the handler's 500
branch is unreachable.  This contradicts the claim (and the route's own
error branch), which expect a failure status on a failed run. -/
theorem updateHandler_always_reports_success (env : Env) (s : Store) (t : Nat) :
    updateHandler env s t = (200, "Data updated") := by
  cases h : tryBlock env s t <;> simp [updateHandler, fetchDataAndSaveToDB, h]

/-- C8: a run of the pipeline only ever appends to the price table:
whatever the stage outcomes, the resulting store's rows are the old rows
with some suffix of new rows appended — every pre-existing row survives
unchanged and none is deleted. -/
theorem pipeline_append_only (env : Env) (s : Store) (t : Nat) :
    ∃ (out : Store × RunLog) (new : List Row),
      fetchDataAndSaveToDB env s t = TryResult.normal out ∧ out.1.rows = s.rows ++ new := by
  cases hf : env.fetched with
  | error e =>
    exact ⟨(s, RunLog.errorLogged e), [],
      by simp [fetchDataAndSaveToDB, tryBlock, hf], by simp⟩
  | ok doc =>
    cases hs : env.storage with
    | some e =>
      exact ⟨(s, RunLog.errorLogged e), [],
        by simp [fetchDataAndSaveToDB, tryBlock, hf, hs], by simp⟩
    | none =>
      obtain ⟨new, hnew⟩ := createMany_rows_append (extract doc) s t
      exact ⟨((createMany s (extract doc) t).1,
          RunLog.insertedCount (createMany s (extract doc) t).2), new,
        by simp [fetchDataAndSaveToDB, tryBlock, hf, hs], hnew⟩

theorem orderedInsert_append_of_lt (a : Row) (m : List Row)
    (hm : ∀ b ∈ m, a.id < b.id) :
    List.orderedInsert (fun x y : Row => y.id ≤ x.id) a m = m ++ [a] := by
  induction m with
  | nil => rfl
  | cons c m ih =>
    have hc : ¬ (c.id ≤ a.id) := Nat.not_le.2 (hm c (List.mem_cons_self c m))
    simp only [List.orderedInsert, if_neg hc, List.cons_append]
    rw [ih (fun b hb => hm b (List.mem_cons_of_mem c hb))]

theorem insertionSort_of_ascending (l : List Row)
    (h : l.Pairwise (fun a b : Row => a.id < b.id)) :
    List.insertionSort (fun x y : Row => y.id ≤ x.id) l = l.reverse := by
  induction l with
  | nil => rfl
  | cons a l ih =>
    rw [List.insertionSort, ih (List.Pairwise.of_cons h),
      orderedInsert_append_of_lt a l.reverse
        (fun b hb => (List.pairwise_cons.1 h).1 b (List.mem_reverse.1 hb))]
    simp

theorem getPrices_eq_reverse_take (s : Store)
    (h : s.rows.Pairwise (fun a b : Row => a.id < b.id)) :
    getPrices s = s.rows.reverse.take 5 := by
  rw [getPrices, insertionSort_of_ascending s.rows h]

/-- C5: on any store whose rows carry strictly increasing surrogate keys
(the invariant the append-only serial-id persister maintains), the
`GET /prices` query returns exactly min 5 n rows, drawn from the store,
strictly descending by key, and every returned row's key exceeds the key
of every stored row that is not returned — i.e. the 5 most recently
inserted rows, newest first. -/
theorem getPrices_five_largest (s : Store)
    (h : s.rows.Pairwise (fun a b : Row => a.id < b.id)) :
    (getPrices s).length = min 5 s.rows.length ∧
      (getPrices s).Pairwise (fun a b : Row => b.id < a.id) ∧
      (∀ x ∈ getPrices s, x ∈ s.rows) ∧
      (∀ y ∈ s.rows, y ∉ getPrices s → ∀ x ∈ getPrices s, y.id < x.id) := by
  have hg : getPrices s = s.rows.reverse.take 5 := getPrices_eq_reverse_take s h
  have hrev : s.rows.reverse.Pairwise (fun a b : Row => b.id < a.id) :=
    List.pairwise_reverse.2 h
  refine ⟨?_, ?_, ?_, ?_⟩
  · rw [hg]
    simp [List.length_take]
  · rw [hg]
    exact List.Pairwise.sublist (List.take_sublist 5 s.rows.reverse) hrev
  · intro x hx
    rw [hg] at hx
    exact List.mem_reverse.1 (List.mem_of_mem_take hx)
  · intro y hy hyn x hx
    rw [hg] at hyn hx
    have hsplit := List.take_append_drop 5 s.rows.reverse
    have hydrop : y ∈ s.rows.reverse.drop 5 := by
      have hyrev : y ∈ s.rows.reverse.take 5 ++ s.rows.reverse.drop 5 := by
        rw [hsplit]
        exact List.mem_reverse.2 hy
      rcases List.mem_append.1 hyrev with h1 | h2
      · exact absurd h1 hyn
      · exact h2
    have hpw : (s.rows.reverse.take 5 ++ s.rows.reverse.drop 5).Pairwise
        (fun a b : Row => b.id < a.id) := by
      rw [hsplit]
      exact hrev
    exact (List.pairwise_append.1 hpw).2.2 x hx y hydrop

/-- Witness for C5 at a store with surrogate keys 1..10: the hypothesis
holds, the theorem applies, and the query concretely returns the rows
with keys 10, 9, 8, 7, 6 in that order. -/
theorem getPrices_five_largest_witness :
    store10.rows.Pairwise (fun a b : Row => a.id < b.id) ∧
      ((getPrices store10).length = min 5 store10.rows.length ∧
        (getPrices store10).Pairwise (fun a b : Row => b.id < a.id) ∧
        (∀ x ∈ getPrices store10, x ∈ store10.rows) ∧
        (∀ y ∈ store10.rows, y ∉ getPrices store10 →
          ∀ x ∈ getPrices store10, y.id < x.id)) ∧
      getPrices store10 = [sampleRow 10, sampleRow 9, sampleRow 8, sampleRow 7, sampleRow 6] :=
  ⟨by decide, getPrices_five_largest store10 (by decide), by decide⟩
